import Mathlib

/-!
# Verification of the firestore-rs document retrieval layer (`src/db/get.rs`)

This file gives a shallow embedding of the document retrieval engine of
firestore-rs: the single-document fetch with bounded retry
(`get_doc_by_path`), the batch correlator
(`batch_stream_get_docs_at_with_errors`), the error-suppressing and typed
projection layers built on top of it, and the default-scope wrappers.

Modelling conventions:
* Rust `Result<A, FirestoreError>` becomes `Except FirestoreError A`.
* The asynchronous response `BoxStream` of the batch RPC becomes a `List` of
  elements: the embedding studies the correlation logic, not the scheduling.
* The gRPC transport (`client().get().get_document` /
  `batch_get_documents`) is a function field of the `FirestoreDb` record, so a
  theorem can quantify over every possible transport behaviour.  The
  single-document transport additionally receives the current attempt counter
  so that a hypothesis can describe per-attempt outcomes.
* `Self::deserialize_doc_to::<T>` (serde, outside `src/db/get.rs`) is passed
  to the typed operations as an explicit function `deser`.
* Rust string `split('/')` is embedded as the structurally recursive
  `splitChar` on the character list of the string, with the same semantics
  (`split` always yields at least one piece; pieces between consecutive
  separators are empty).
-/

set_option autoImplicit false

namespace Firestore

/-- The wire representation of one document: its fully qualified name, its
field mapping and metadata timestamps.  The claims never inspect the fields,
so their value type is kept as an opaque pair list. -/
structure Document where
  name : String
  fields : List (String × String) := []
  create_time : Option Nat := none
  update_time : Option Nat := none
  deriving Repr, DecidableEq

/-- Error type of the crate (`FirestoreError`), restricted to the variants
that the retrieval layer distinguishes.  `DatabaseError` carries the
`retry_possible` flag inspected by the retry loop. -/
structure FirestoreDatabaseError where
  retry_possible : Bool
  details : String
  deriving Repr, DecidableEq

inductive FirestoreError where
  | DatabaseError (err : FirestoreDatabaseError)
  | DataNotFoundError (details : String)
  | DeserializeError (details : String)
  | InvalidParametersError (details : String)
  | SystemError (details : String)
  deriving Repr, DecidableEq

/-- `google.firestore.v1.DocumentMask`: the list of field paths a read
returns. -/
structure DocumentMask where
  field_paths : List String
  deriving Repr, DecidableEq

/-- Stand-in for the proto consistency selector produced by
`selector.try_into()`; its contents are opaque to this layer. -/
structure ConsistencySelectorProto where
  tag : Nat
  deriving Repr, DecidableEq

/-- `google.firestore.v1.GetDocumentRequest`, restricted to the fields the
code sets. -/
structure GetDocumentRequest where
  name : String
  consistency_selector : Option ConsistencySelectorProto
  mask : Option DocumentMask
  deriving Repr, DecidableEq

/-- `google.firestore.v1.BatchGetDocumentsRequest`, restricted to the fields
the code sets. -/
structure BatchGetDocumentsRequest where
  database : String
  documents : List String
  consistency_selector : Option ConsistencySelectorProto
  mask : Option DocumentMask
  deriving Repr, DecidableEq

/-- The `oneof result` of `batch_get_documents_response`: a found document or
the full id of a missing one. -/
inductive BatchGetResult where
  | found (document : Document)
  | missing (full_doc_id : String)
  deriving Repr, DecidableEq

/-- One response envelope of the batch stream; the `result` field is optional
on the wire, so it is an `Option`. -/
structure BatchGetDocumentsResponse where
  result : Option BatchGetResult
  deriving Repr, DecidableEq

/-- The full name carried by an envelope result: the document's `name` for
`found`, the given full id for `missing`. -/
def BatchGetResult.name : BatchGetResult → String
  | .found document => document.name
  | .missing full_doc_id => full_doc_id

/-- The document payload carried by an envelope result: `some` for `found`,
`none` for `missing`. -/
def BatchGetResult.payload : BatchGetResult → Option Document
  | .found document => some document
  | .missing _ => none

/-- Rust `char`-pattern `str::split`, on the character list of a string.
`split` always returns at least one piece, and consecutive separators
delimit empty pieces, exactly as in Rust. -/
def splitChar (sep : Char) : List Char → List (List Char)
  | [] => [[]]
  | c :: cs =>
    let rest := splitChar sep cs
    if c = sep then [] :: rest
    else
      match rest with
      | [] => [[c]]
      | r :: rs => (c :: r) :: rs

/-- The short-identifier extraction the batch correlator applies to both
`Found` document names and `Missing` full ids:
`name.split('/').last().map(|s| s.to_string()).unwrap_or_else(|| name.clone())`. -/
def extract_doc_id (name : String) : String :=
  match ((splitChar '/' name.data).getLast?).map String.mk with
  | some doc_id => doc_id
  | none => name

/-- Modelled from the spec: `safe_document_path` lives in `src/db/mod.rs`,
outside the given source.  Per the spec it validates the identifier's safety
and canonicalizes `(parent, collection, id)` into one full document path, and
its failure is immediately fatal for the enclosing call.  The model rejects
an id containing the path separator and otherwise concatenates the segments. -/
def safe_document_path (parent collection_id document_id : String) :
    Except FirestoreError String :=
  if '/' ∈ document_id.data then
    .error (.InvalidParametersError document_id)
  else
    .ok (parent ++ "/" ++ collection_id ++ "/" ++ document_id)

/-- `Iterator::collect::<FirestoreResult<Vec<_>>>()`: collect a list of
fallible results, short-circuiting at the first error. -/
def collect_firestore_results {α β : Type} (f : α → Except FirestoreError β) :
    List α → Except FirestoreError (List β)
  | [] => .ok []
  | a :: as =>
    match f a with
    | .error e => .error e
    | .ok b =>
      match collect_firestore_results f as with
      | .error e => .error e
      | .ok bs => .ok (b :: bs)

/-- Rust `Option::transpose` on an optional fallible value, as used for
`consistency_selector.as_ref().map(|s| s.try_into()).transpose()?`. -/
def option_transpose {α : Type} :
    Option (Except FirestoreError α) → Except FirestoreError (Option α)
  | none => .ok none
  | some (.ok a) => .ok (some a)
  | some (.error e) => .error e

/-- The database handle.  `documents_path`, `database_path`, `max_retries`
and `consistency_selector` model `get_documents_path()`,
`get_database_path()`, `get_options().max_retries` and
`session_params.consistency_selector.map(try_into)`.  The two transport
functions model the gRPC client; the single-document transport also receives
the current attempt counter, so that hypotheses can describe per-attempt
behaviour. -/
structure FirestoreDb where
  documents_path : String
  database_path : String
  max_retries : Nat
  consistency_selector : Option (Except FirestoreError ConsistencySelectorProto)
  get_document : GetDocumentRequest → Nat → Except FirestoreError Document
  batch_get_documents :
    BatchGetDocumentsRequest →
      Except FirestoreError (List (Except FirestoreError BatchGetDocumentsResponse))

/-- `FirestoreDb::get_doc_by_path`: issue one `GetDocumentRequest`; on a
`DatabaseError` with `retry_possible` set and the attempt counter below
`max_retries`, recurse with the counter incremented and the field mask
cleared; otherwise propagate the error unchanged. -/
def get_doc_by_path (db : FirestoreDb) (document_path : String)
    (return_only_fields : Option (List String)) (retries : Nat) :
    Except FirestoreError Document :=
  match option_transpose db.consistency_selector with
  | .error err => .error err
  | .ok consistency_selector =>
    let request : GetDocumentRequest :=
      { name := document_path
        consistency_selector := consistency_selector
        mask := return_only_fields.map fun vf => { field_paths := vf } }
    match db.get_document request retries with
    | .ok doc_response => .ok doc_response
    | .error err =>
      match err with
      | .DatabaseError db_err =>
        if h : db_err.retry_possible ∧ retries < db.max_retries then
          get_doc_by_path db document_path none (retries + 1)
        else .error (.DatabaseError db_err)
      | _ => .error err
  termination_by db.max_retries - retries
  decreasing_by
    omega

/-- Instrumented copy of `get_doc_by_path` that additionally records, in
order, every attempt issued to the transport together with its request.  The
second component is the computed result; `get_doc_by_path_trace_snd` proves
it coincides with `get_doc_by_path`. -/
def get_doc_by_path_trace (db : FirestoreDb) (document_path : String)
    (return_only_fields : Option (List String)) (retries : Nat) :
    List (Nat × GetDocumentRequest) × Except FirestoreError Document :=
  match option_transpose db.consistency_selector with
  | .error err => ([], .error err)
  | .ok consistency_selector =>
    let request : GetDocumentRequest :=
      { name := document_path
        consistency_selector := consistency_selector
        mask := return_only_fields.map fun vf => { field_paths := vf } }
    match db.get_document request retries with
    | .ok doc_response => ([(retries, request)], .ok doc_response)
    | .error err =>
      match err with
      | .DatabaseError db_err =>
        if h : db_err.retry_possible ∧ retries < db.max_retries then
          let rest := get_doc_by_path_trace db document_path none (retries + 1)
          ((retries, request) :: rest.1, rest.2)
        else ([(retries, request)], .error (.DatabaseError db_err))
      | _ => ([(retries, request)], .error err)
  termination_by db.max_retries - retries
  decreasing_by
    omega

/-- The suffix of a character list strictly after its last occurrence of
`sep` (the whole list when `sep` does not occur): the spec's reading of
"the substring after the last separator". -/
def after_last_sep (sep : Char) (l : List Char) : List Char :=
  (l.reverse.takeWhile (fun c => c != sep)).reverse

/-- `FirestoreGetByIdSupport::get_doc_at`: resolve the full document path,
then fetch it starting at attempt counter `0`. -/
def get_doc_at (db : FirestoreDb) (parent collection_id document_id : String)
    (return_only_fields : Option (List String)) : Except FirestoreError Document :=
  match safe_document_path parent collection_id document_id with
  | .error err => .error err
  | .ok document_path => get_doc_by_path db document_path return_only_fields 0

/-- `get_doc`: default-scope form of `get_doc_at`. -/
def get_doc (db : FirestoreDb) (collection_id document_id : String)
    (return_only_fields : Option (List String)) : Except FirestoreError Document :=
  get_doc_at db db.documents_path collection_id document_id return_only_fields

/-- `get_obj_at`: fetch the full document (no field mask) and decode it with
`deser`, the stand-in for `Self::deserialize_doc_to::<T>`. -/
def get_obj_at {T : Type} (db : FirestoreDb)
    (deser : Document → Except FirestoreError T)
    (parent collection_id document_id : String) : Except FirestoreError T :=
  match get_doc_at db parent collection_id document_id none with
  | .error err => .error err
  | .ok doc =>
    match deser doc with
    | .error err => .error err
    | .ok obj => .ok obj

/-- `get_obj`: default-scope form of `get_obj_at`. -/
def get_obj {T : Type} (db : FirestoreDb)
    (deser : Document → Except FirestoreError T)
    (collection_id document_id : String) : Except FirestoreError T :=
  get_obj_at db deser db.documents_path collection_id document_id

/-- `get_obj_at_return_fields`: fetch with the caller's field mask and decode
with `deser`. -/
def get_obj_at_return_fields {T : Type} (db : FirestoreDb)
    (deser : Document → Except FirestoreError T)
    (parent collection_id document_id : String)
    (return_only_fields : Option (List String)) : Except FirestoreError T :=
  match get_doc_at db parent collection_id document_id return_only_fields with
  | .error err => .error err
  | .ok doc =>
    match deser doc with
    | .error err => .error err
    | .ok obj => .ok obj

/-- `get_obj_at_if_exists`: existence-folding typed fetch — a
`DataNotFoundError` becomes `Ok(None)`, every other error propagates, a
success wraps in `Some`. -/
def get_obj_at_if_exists {T : Type} (db : FirestoreDb)
    (deser : Document → Except FirestoreError T)
    (parent collection_id document_id : String)
    (return_only_fields : Option (List String)) : Except FirestoreError (Option T) :=
  match get_obj_at_return_fields db deser parent collection_id document_id
      return_only_fields with
  | .ok obj => .ok (some obj)
  | .error err =>
    match err with
    | .DataNotFoundError _ => .ok none
    | _ => .error err

/-- `get_obj_if_exists`: default-scope form of `get_obj_at_if_exists`. -/
def get_obj_if_exists {T : Type} (db : FirestoreDb)
    (deser : Document → Except FirestoreError T)
    (collection_id document_id : String)
    (return_only_fields : Option (List String)) : Except FirestoreError (Option T) :=
  get_obj_at_if_exists db deser db.documents_path collection_id document_id
    return_only_fields

/-- The per-envelope correlation of the batch response stream (the
`filter_map` closure of `batch_stream_get_docs_at_with_errors`): a `Found`
document or a `Missing` full id yields an `Ok` pair keyed by the extracted
short identifier, an envelope without a `result` yields nothing, and a
per-element transport error is surfaced as the element itself. -/
def correlate_batch_response
    (response : List (Except FirestoreError BatchGetDocumentsResponse)) :
    List (Except FirestoreError (String × Option Document)) :=
  response.filterMap fun r =>
    match r with
    | .ok doc_response =>
      doc_response.result.map fun doc_res =>
        match doc_res with
        | .found document => .ok (extract_doc_id document.name, some document)
        | .missing full_doc_id => .ok (extract_doc_id full_doc_id, none)
    | .error err => some (.error err)

/-- `batch_stream_get_docs_at_with_errors`: resolve every id up front
(fail-fast), issue one `BatchGetDocumentsRequest`, and correlate the
response stream. -/
def batch_stream_get_docs_at_with_errors (db : FirestoreDb)
    (parent collection_id : String) (document_ids : List String)
    (return_only_fields : Option (List String)) :
    Except FirestoreError (List (Except FirestoreError (String × Option Document))) :=
  match collect_firestore_results
      (fun document_id => safe_document_path parent collection_id document_id)
      document_ids with
  | .error err => .error err
  | .ok full_doc_ids =>
    match option_transpose db.consistency_selector with
    | .error err => .error err
    | .ok consistency_selector =>
      let request : BatchGetDocumentsRequest :=
        { database := db.database_path
          documents := full_doc_ids
          consistency_selector := consistency_selector
          mask := return_only_fields.map fun vf => { field_paths := vf } }
      match db.batch_get_documents request with
      | .ok response => .ok (correlate_batch_response response)
      | .error err => .error err

/-- The error-suppressing `filter_map` of `batch_stream_get_docs_at`: keep
the correlated pairs, drop (and in the source log) the per-element errors. -/
def drop_error_elements
    (doc_stream : List (Except FirestoreError (String × Option Document))) :
    List (String × Option Document) :=
  doc_stream.filterMap fun doc_res =>
    match doc_res with
    | .ok doc_pair => some doc_pair
    | .error _ => none

/-- `batch_stream_get_docs_at`: the error-suppressing view over
`batch_stream_get_docs_at_with_errors`. -/
def batch_stream_get_docs_at (db : FirestoreDb) (parent collection_id : String)
    (document_ids : List String) (return_only_fields : Option (List String)) :
    Except FirestoreError (List (String × Option Document)) :=
  match batch_stream_get_docs_at_with_errors db parent collection_id document_ids
      return_only_fields with
  | .error err => .error err
  | .ok doc_stream => .ok (drop_error_elements doc_stream)

/-- `batch_stream_get_docs`: default-scope form of `batch_stream_get_docs_at`. -/
def batch_stream_get_docs (db : FirestoreDb) (collection_id : String)
    (document_ids : List String) (return_only_fields : Option (List String)) :
    Except FirestoreError (List (String × Option Document)) :=
  batch_stream_get_docs_at db db.documents_path collection_id document_ids
    return_only_fields

/-- `batch_stream_get_docs_with_errors`: default-scope form of
`batch_stream_get_docs_at_with_errors`. -/
def batch_stream_get_docs_with_errors (db : FirestoreDb) (collection_id : String)
    (document_ids : List String) (return_only_fields : Option (List String)) :
    Except FirestoreError (List (Except FirestoreError (String × Option Document))) :=
  batch_stream_get_docs_at_with_errors db db.documents_path collection_id
    document_ids return_only_fields

/-- The decoding `filter_map` of `batch_stream_get_objects_at`: decode each
found document with `deser`, keep `(id, None)` pairs, and drop (and in the
source log) the elements whose decode fails. -/
def decode_elements {T : Type} (deser : Document → Except FirestoreError T)
    (doc_stream : List (String × Option Document)) : List (String × Option T) :=
  doc_stream.filterMap fun p =>
    match p with
    | (doc_id, some doc) =>
      match deser doc with
      | .ok obj => some (doc_id, some obj)
      | .error _ => none
    | (doc_id, none) => some (doc_id, none)

/-- `batch_stream_get_objects_at`: the typed error-suppressing batch view. -/
def batch_stream_get_objects_at {T : Type} (db : FirestoreDb)
    (deser : Document → Except FirestoreError T) (parent collection_id : String)
    (document_ids : List String) (return_only_fields : Option (List String)) :
    Except FirestoreError (List (String × Option T)) :=
  match batch_stream_get_docs_at db parent collection_id document_ids
      return_only_fields with
  | .error err => .error err
  | .ok doc_stream => .ok (decode_elements deser doc_stream)

/-- `batch_stream_get_objects`: default-scope form of
`batch_stream_get_objects_at`. -/
def batch_stream_get_objects {T : Type} (db : FirestoreDb)
    (deser : Document → Except FirestoreError T) (collection_id : String)
    (document_ids : List String) (return_only_fields : Option (List String)) :
    Except FirestoreError (List (String × Option T)) :=
  batch_stream_get_objects_at db deser db.documents_path collection_id
    document_ids return_only_fields

/-- Concrete database handle for witnesses of the batch claims: the batch
transport returns the given `response` for every request; the
single-document transport always fails retryably. -/
def test_db (response : List (Except FirestoreError BatchGetDocumentsResponse)) :
    FirestoreDb :=
  { documents_path := "projects/p/databases/d/documents"
    database_path := "projects/p/databases/d"
    max_retries := 2
    consistency_selector := none
    get_document := fun _ _ =>
      .error (.DatabaseError { retry_possible := true, details := "boom" })
    batch_get_documents := fun _ => .ok response }

/-- Concrete database handle whose single-document transport always reports
a missing document. -/
def notfound_db : FirestoreDb :=
  { documents_path := "projects/p/databases/d/documents"
    database_path := "projects/p/databases/d"
    max_retries := 2
    consistency_selector := none
    get_document := fun _ _ => .error (.DataNotFoundError "nf")
    batch_get_documents := fun _ => .ok [] }

/-- Concrete document for witnesses. -/
def doc_x : Document := { name := "p/c/x" }

/-- Concrete decoder for witnesses: always succeeds with `7`. -/
def const_deser : Document → Except FirestoreError Nat := fun _ => .ok 7

/-- Concrete decoder for witnesses: always fails to decode. -/
def fail_deser : Document → Except FirestoreError Nat :=
  fun _ => .error (.DeserializeError "bad")

/-- Batch response for the identity-preservation witness: one found and one
missing envelope, in arrival order. -/
def identity_response : List (Except FirestoreError BatchGetDocumentsResponse) :=
  [.ok { result := some (.found doc_x) }, .ok { result := some (.missing "p/c/y") }]

/-- Batch response for the missing-document witness: a single missing
envelope. -/
def missing_response : List (Except FirestoreError BatchGetDocumentsResponse) :=
  [.ok { result := some (.missing "p/c/x") }]

/-- Batch response for the suppression-liveness witness: a per-element
transport error, then a found document, then a missing envelope. -/
def liveness_response : List (Except FirestoreError BatchGetDocumentsResponse) :=
  [.error (.SystemError "e1"),
   .ok { result := some (.found doc_x) },
   .ok { result := some (.missing "p/c/y") }]

/-- Batch response for the absent-result witness: a missing envelope, an
envelope whose `result` field is absent, then another missing envelope. -/
def absent_result_response :
    List (Except FirestoreError BatchGetDocumentsResponse) :=
  [.ok { result := some (.missing "p/c/x") },
   .ok { result := none },
   .ok { result := some (.missing "p/c/y") }]

theorem get_doc_by_path_trace_snd (db : FirestoreDb) (document_path : String)
    (return_only_fields : Option (List String)) (retries : Nat) :
    (get_doc_by_path_trace db document_path return_only_fields retries).2
      = get_doc_by_path db document_path return_only_fields retries := by
  suffices h : ∀ k retries m, db.max_retries - retries = k →
      (get_doc_by_path_trace db document_path m retries).2
        = get_doc_by_path db document_path m retries from
    h _ retries return_only_fields rfl
  intro k
  induction k using Nat.strong_induction_on with
  | _ k ih =>
    intro retries m hk
    unfold get_doc_by_path_trace get_doc_by_path
    cases option_transpose db.consistency_selector with
    | error err => rfl
    | ok consistency_selector =>
      simp only
      cases db.get_document
          { name := document_path
            consistency_selector := consistency_selector
            mask := m.map fun vf => { field_paths := vf } } retries with
      | ok doc_response => rfl
      | error err =>
        cases err with
        | DatabaseError db_err =>
          by_cases h : db_err.retry_possible ∧ retries < db.max_retries
          · simp only [dif_pos h]
            exact ih (db.max_retries - (retries + 1)) (by omega) (retries + 1) none rfl
          · simp only [dif_neg h]
        | DataNotFoundError d => rfl
        | DeserializeError d => rfl
        | InvalidParametersError d => rfl
        | SystemError d => rfl

theorem splitChar_ne_nil (sep : Char) (l : List Char) : splitChar sep l ≠ [] := by
  cases l with
  | nil => simp [splitChar]
  | cons c cs =>
    simp only [splitChar]
    by_cases h : c = sep
    · simp [h]
    · simp only [if_neg h]
      cases splitChar sep cs <;> simp

theorem splitChar_cons_self (sep : Char) (cs : List Char) :
    splitChar sep (sep :: cs) = [] :: splitChar sep cs := by
  simp [splitChar]

theorem splitChar_cons_of_ne {sep c : Char} (cs : List Char) (h : ¬c = sep) :
    splitChar sep (c :: cs) =
      match splitChar sep cs with
      | [] => [[c]]
      | r :: rs => (c :: r) :: rs := by
  simp [splitChar, h]

theorem splitChar_of_not_mem {sep : Char} {l : List Char} (h : sep ∉ l) :
    splitChar sep l = [l] := by
  induction l with
  | nil => rfl
  | cons c cs ih =>
    simp only [List.mem_cons, not_or] at h
    have hc : ¬c = sep := fun hceq => h.1 hceq.symm
    rw [splitChar_cons_of_ne cs hc, ih h.2]

theorem two_le_length_splitChar {sep : Char} {l : List Char} (h : sep ∈ l) :
    2 ≤ (splitChar sep l).length := by
  induction l with
  | nil => cases h
  | cons c cs ih =>
    simp only [splitChar]
    by_cases hc : c = sep
    · simp only [if_pos hc, List.length_cons]
      have := List.length_pos.mpr (splitChar_ne_nil sep cs)
      omega
    · simp only [if_neg hc]
      have hcs : sep ∈ cs := by
        rcases List.mem_cons.mp h with h1 | h1
        · exact absurd h1.symm hc
        · exact h1
      have h2 := ih hcs
      cases hrest : splitChar sep cs with
      | nil => exact absurd hrest (splitChar_ne_nil sep cs)
      | cons r rs =>
        rw [hrest] at h2
        simpa using h2

theorem getLast?_splitChar_append {sep : Char} {l₂ : List Char} (l₁ : List Char)
    (h : sep ∉ l₂) :
    (splitChar sep (l₁ ++ sep :: l₂)).getLast? = some l₂ := by
  induction l₁ with
  | nil =>
    rw [List.nil_append, splitChar_cons_self, splitChar_of_not_mem h]
    rfl
  | cons c l₁ ih =>
    rw [List.cons_append]
    by_cases hc : c = sep
    · subst hc
      rw [splitChar_cons_self]
      cases hrest : splitChar c (l₁ ++ c :: l₂) with
      | nil => exact absurd hrest (splitChar_ne_nil c _)
      | cons r rs =>
        rw [hrest] at ih
        rw [List.getLast?_cons_cons]
        exact ih
    · rw [splitChar_cons_of_ne _ hc]
      have hmem : sep ∈ l₁ ++ sep :: l₂ := List.mem_append_right l₁ (List.mem_cons_self sep _)
      have hlen := two_le_length_splitChar hmem
      cases hrest : splitChar sep (l₁ ++ sep :: l₂) with
      | nil => exact absurd hrest (splitChar_ne_nil sep _)
      | cons r rs =>
        cases rs with
        | nil =>
          rw [hrest] at hlen
          simp at hlen
        | cons r' rs' =>
          rw [hrest] at ih
          rw [List.getLast?_cons_cons] at ih
          simp only
          rw [List.getLast?_cons_cons]
          exact ih

theorem last_sep_decomposition {sep : Char} {l : List Char} (h : sep ∈ l) :
    ∃ l₁ l₂, l = l₁ ++ sep :: l₂ ∧ sep ∉ l₂ := by
  induction l with
  | nil => cases h
  | cons c cs ih =>
    by_cases hcs : sep ∈ cs
    · obtain ⟨l₁, l₂, heq, hnot⟩ := ih hcs
      exact ⟨c :: l₁, l₂, by simp [heq], hnot⟩
    · have hc : c = sep := by
        rcases List.mem_cons.mp h with h1 | h1
        · exact h1.symm
        · exact absurd h1 hcs
      exact ⟨[], cs, by simp [hc], hcs⟩

theorem takeWhile_append_of_forall {p : Char → Bool} {a : List Char} {b : Char}
    (c : List Char) (ha : ∀ x ∈ a, p x = true) (hb : p b = false) :
    (a ++ b :: c).takeWhile p = a := by
  induction a with
  | nil => simp [List.takeWhile, hb]
  | cons x xs ih =>
    have hx := ha x (List.mem_cons_self x xs)
    simp only [List.cons_append, List.takeWhile, hx]
    exact congrArg (List.cons x) (ih (fun y hy => ha y (List.mem_cons_of_mem x hy)))

theorem after_last_sep_append {sep : Char} {l₂ : List Char} (l₁ : List Char)
    (h : sep ∉ l₂) : after_last_sep sep (l₁ ++ sep :: l₂) = l₂ := by
  unfold after_last_sep
  rw [List.reverse_append, List.reverse_cons, List.append_assoc, List.singleton_append]
  rw [takeWhile_append_of_forall l₁.reverse
    (fun x hx => by
      have : x ∈ l₂ := List.mem_reverse.mp hx
      simp only [bne_iff_ne, ne_eq, decide_eq_true_eq]
      exact fun hxs => h (hxs ▸ this))
    (by simp)]
  exact List.reverse_reverse l₂

theorem extract_doc_id_of_not_mem {s : String} (h : '/' ∉ s.data) :
    extract_doc_id s = s := by
  unfold extract_doc_id
  rw [splitChar_of_not_mem h]
  rfl

theorem extract_doc_id_eq_after_last_sep {s : String} (h : '/' ∈ s.data) :
    extract_doc_id s = String.mk (after_last_sep '/' s.data) := by
  obtain ⟨l₁, l₂, heq, hnot⟩ := last_sep_decomposition h
  unfold extract_doc_id
  rw [heq, getLast?_splitChar_append l₁ hnot, after_last_sep_append l₁ hnot]
  rfl

theorem extract_doc_id_append {s t : String} (h : '/' ∉ t.data) :
    extract_doc_id (s ++ "/" ++ t) = t := by
  have hdata : (s ++ "/" ++ t).data = (s.data ++ ['/']) ++ t.data := by
    rw [String.data_append, String.data_append]
  unfold extract_doc_id
  rw [hdata, List.append_assoc, List.singleton_append,
    getLast?_splitChar_append s.data h]
  rfl

theorem extract_of_safe_document_path {parent collection_id document_id s : String}
    (h : safe_document_path parent collection_id document_id = .ok s) :
    extract_doc_id s = document_id := by
  unfold safe_document_path at h
  by_cases hmem : '/' ∈ document_id.data
  · rw [if_pos hmem] at h
    cases h
  · rw [if_neg hmem] at h
    cases h
    exact extract_doc_id_append hmem

theorem not_mem_of_safe_document_path {parent collection_id document_id s : String}
    (h : safe_document_path parent collection_id document_id = .ok s) :
    '/' ∉ document_id.data ∧ s = parent ++ "/" ++ collection_id ++ "/" ++ document_id := by
  unfold safe_document_path at h
  by_cases hmem : '/' ∈ document_id.data
  · rw [if_pos hmem] at h
    cases h
  · rw [if_neg hmem] at h
    cases h
    exact ⟨hmem, rfl⟩

/-- **C8.** For every string name carried in a `Found` document or a
`Missing` full id, short-identifier extraction is a total function
(`extract_doc_id` is total by construction); on a string without a `'/'`
separator it returns the whole string unchanged, and on a string containing
a separator it returns exactly the substring after the last `'/'`. -/
theorem extract_doc_id_last_segment (s : String) :
    ('/' ∉ s.data → extract_doc_id s = s)
    ∧ ('/' ∈ s.data → extract_doc_id s = String.mk (after_last_sep '/' s.data)) :=
  ⟨fun h => extract_doc_id_of_not_mem h, fun h => extract_doc_id_eq_after_last_sep h⟩

/-- Witness for C8 at the concrete strings `"abc"` (no separator) and
`"a/b/c"` (two separators). -/
theorem extract_doc_id_last_segment_witness :
    ('/' ∉ ("abc" : String).data ∧ extract_doc_id "abc" = "abc")
    ∧ ('/' ∈ ("a/b/c" : String).data
        ∧ extract_doc_id "a/b/c" = String.mk (after_last_sep '/' ("a/b/c" : String).data)) :=
  ⟨⟨by decide, (extract_doc_id_last_segment "abc").1 (by decide)⟩,
   ⟨by decide, (extract_doc_id_last_segment "a/b/c").2 (by decide)⟩⟩

/-- **C9.** Each default-scope operation (`get_doc`, `get_obj`,
`get_obj_if_exists`, `batch_stream_get_docs`,
`batch_stream_get_docs_with_errors`, `batch_stream_get_objects`) returns
exactly the result of its explicit-scope counterpart invoked with the
database's default documents path as the parent scope: pure forwarding,
no additional logic. -/
theorem default_scope_delegation {T : Type} (db : FirestoreDb)
    (deser : Document → Except FirestoreError T)
    (collection_id document_id : String) (document_ids : List String)
    (return_only_fields : Option (List String)) :
    get_doc db collection_id document_id return_only_fields
        = get_doc_at db db.documents_path collection_id document_id return_only_fields
    ∧ get_obj db deser collection_id document_id
        = get_obj_at db deser db.documents_path collection_id document_id
    ∧ get_obj_if_exists db deser collection_id document_id return_only_fields
        = get_obj_at_if_exists db deser db.documents_path collection_id document_id
            return_only_fields
    ∧ batch_stream_get_docs db collection_id document_ids return_only_fields
        = batch_stream_get_docs_at db db.documents_path collection_id document_ids
            return_only_fields
    ∧ batch_stream_get_docs_with_errors db collection_id document_ids
          return_only_fields
        = batch_stream_get_docs_at_with_errors db db.documents_path collection_id
            document_ids return_only_fields
    ∧ batch_stream_get_objects db deser collection_id document_ids
          return_only_fields
        = batch_stream_get_objects_at db deser db.documents_path collection_id
            document_ids return_only_fields :=
  ⟨rfl, rfl, rfl, rfl, rfl, rfl⟩

theorem collect_ok_forall₂ {α β : Type} {f : α → Except FirestoreError β}
    {l : List α} {bs : List β}
    (h : collect_firestore_results f l = .ok bs) :
    List.Forall₂ (fun a b => f a = .ok b) l bs := by
  induction l generalizing bs with
  | nil =>
    unfold collect_firestore_results at h
    injection h with h
    subst h
    exact List.Forall₂.nil
  | cons a as ih =>
    unfold collect_firestore_results at h
    cases hfa : f a with
    | error e => rw [hfa] at h; cases h
    | ok b =>
      rw [hfa] at h
      cases hrec : collect_firestore_results f as with
      | error e => rw [hrec] at h; cases h
      | ok bs' =>
        rw [hrec] at h
        injection h with h
        subst h
        exact List.Forall₂.cons hfa (ih hrec)

theorem collect_error_of_mem {α β : Type} {f : α → Except FirestoreError β}
    {l : List α} {a : α} {e : FirestoreError}
    (hmem : a ∈ l) (hfail : f a = .error e) :
    ∃ e', collect_firestore_results f l = .error e' := by
  induction l with
  | nil => cases hmem
  | cons b bs ih =>
    unfold collect_firestore_results
    cases hfb : f b with
    | error e' => exact ⟨e', rfl⟩
    | ok v =>
      rcases List.mem_cons.mp hmem with h1 | h1
      · subst h1
        rw [hfail] at hfb
        cases hfb
      · obtain ⟨e', he'⟩ := ih h1
        rw [he']
        exact ⟨e', rfl⟩

theorem map_extract_of_forall₂ {parent collection_id : String}
    {ids fulls : List String}
    (h : List.Forall₂
      (fun i s => safe_document_path parent collection_id i = .ok s) ids fulls) :
    fulls.map extract_doc_id = ids := by
  induction h with
  | nil => rfl
  | cons hab _ ih =>
    simp only [List.map_cons, extract_of_safe_document_path hab, ih]

theorem get_doc_by_path_trace_no_retry (db : FirestoreDb) (document_path : String)
    (m : Option (List String)) (retries : Nat) (db_err : FirestoreDatabaseError)
    (sel : Option ConsistencySelectorProto)
    (hcons : option_transpose db.consistency_selector = .ok sel)
    (hfail : ∀ request, db.get_document request retries
      = .error (.DatabaseError db_err))
    (hstop : ¬(db_err.retry_possible ∧ retries < db.max_retries)) :
    get_doc_by_path_trace db document_path m retries
      = ([(retries,
            { name := document_path, consistency_selector := sel,
              mask := m.map fun vf => { field_paths := vf } })],
         .error (.DatabaseError db_err)) := by
  unfold get_doc_by_path_trace
  simp only [hcons, hfail, dif_neg hstop]

theorem get_doc_by_path_trace_all_retryable (db : FirestoreDb)
    (document_path : String) (e : Nat → FirestoreDatabaseError)
    (sel : Option ConsistencySelectorProto)
    (hcons : option_transpose db.consistency_selector = .ok sel)
    (hfail : ∀ request i, db.get_document request i = .error (.DatabaseError (e i)))
    (hretry : ∀ i, (e i).retry_possible = true) :
    ∀ k retries m, retries ≤ db.max_retries → db.max_retries - retries = k →
      get_doc_by_path_trace db document_path m retries
        = ((retries,
              { name := document_path, consistency_selector := sel,
                mask := m.map fun vf => { field_paths := vf } })
            :: (List.range' (retries + 1) k).map
                (fun i =>
                  (i, { name := document_path, consistency_selector := sel,
                        mask := none })),
           .error (.DatabaseError (e db.max_retries))) := by
  intro k
  induction k with
  | zero =>
    intro retries m hle hk
    have hmax : retries = db.max_retries := by omega
    rw [get_doc_by_path_trace_no_retry db document_path m retries (e retries) sel
      hcons (fun request => hfail request retries)
      (fun hc => absurd hc.2 (by omega))]
    rw [hmax]
    simp [List.range']
  | succ k ih =>
    intro retries m hle hk
    unfold get_doc_by_path_trace
    have hpos : (e retries).retry_possible ∧ retries < db.max_retries :=
      ⟨hretry retries, by omega⟩
    simp only [hcons, hfail, dif_pos hpos]
    rw [ih (retries + 1) none (by omega) (by omega)]
    simp [List.range'_succ]

/-- **C2.** If the underlying RPC fails on every attempt with a
`DatabaseError`, then: with every error retryable, `get_doc_by_path`
starting from attempt counter `0` issues exactly `max_retries + 1` RPC
attempts (attempt indices `0 .. max_retries`) and returns the error of the
last attempt unchanged; a non-retryable error at attempt `0` is propagated
after exactly one attempt; and starting at counter `max_retries`, any
`DatabaseError` is propagated after exactly one attempt. -/
theorem retry_bound (db : FirestoreDb) (document_path : String)
    (return_only_fields : Option (List String)) (e : Nat → FirestoreDatabaseError)
    (sel : Option ConsistencySelectorProto)
    (hcons : option_transpose db.consistency_selector = .ok sel)
    (hfail : ∀ request i, db.get_document request i = .error (.DatabaseError (e i))) :
    ((∀ i, (e i).retry_possible = true) →
      (get_doc_by_path_trace db document_path return_only_fields 0).1.map Prod.fst
          = List.range (db.max_retries + 1)
      ∧ get_doc_by_path db document_path return_only_fields 0
          = .error (.DatabaseError (e db.max_retries)))
    ∧ ((e 0).retry_possible = false →
      (get_doc_by_path_trace db document_path return_only_fields 0).1.map Prod.fst
          = [0]
      ∧ get_doc_by_path db document_path return_only_fields 0
          = .error (.DatabaseError (e 0)))
    ∧ ((get_doc_by_path_trace db document_path return_only_fields
            db.max_retries).1.map Prod.fst
          = [db.max_retries]
      ∧ get_doc_by_path db document_path return_only_fields db.max_retries
          = .error (.DatabaseError (e db.max_retries))) := by
  refine ⟨fun hretry => ?_, fun hnoretry => ?_, ?_⟩
  · have h := get_doc_by_path_trace_all_retryable db document_path e sel hcons hfail
      hretry db.max_retries 0 return_only_fields (by omega) (by omega)
    constructor
    · rw [h]
      simp only [List.map_cons, List.map_map]
      rw [List.range_eq_range']
      rw [List.range'_succ 0 db.max_retries 1]
      exact congrArg (List.cons 0) (List.map_id _)
    · rw [← get_doc_by_path_trace_snd, h]
  · have h := get_doc_by_path_trace_no_retry db document_path return_only_fields 0
      (e 0) sel hcons (fun request => hfail request 0)
      (fun hcontra => by rw [hnoretry] at hcontra; exact Bool.noConfusion hcontra.1)
    constructor
    · rw [h]
      rfl
    · rw [← get_doc_by_path_trace_snd, h]
  · have h := get_doc_by_path_trace_no_retry db document_path return_only_fields
      db.max_retries (e db.max_retries) sel hcons
      (fun request => hfail request db.max_retries)
      (fun hc => absurd hc.2 (by omega))
    constructor
    · rw [h]
      rfl
    · rw [← get_doc_by_path_trace_snd, h]

/-- Witness for C2 on a concrete handle with `max_retries = 2` whose
transport fails retryably on every attempt: three attempts `[0, 1, 2]` are
issued and the last error is returned. -/
theorem retry_bound_witness :
    (test_db []).max_retries = 2
    ∧ (get_doc_by_path_trace (test_db []) "p/c/x" none 0).1.map Prod.fst
        = List.range 3
    ∧ get_doc_by_path (test_db []) "p/c/x" none 0
        = .error (.DatabaseError { retry_possible := true, details := "boom" }) := by
  have h := (retry_bound (test_db []) "p/c/x" none
      (fun _ => { retry_possible := true, details := "boom" }) none rfl
      (fun _ _ => rfl)).1 (fun _ => rfl)
  exact ⟨rfl, h.1, h.2⟩

/-- **C6.** In every retried single-document fetch, every attempt after the
first is issued with the field mask cleared: in the attempt trace of
`get_doc_by_path` started at counter `retries`, every recorded request with
a strictly larger attempt index carries `mask = none`, whatever the original
`return_only_fields` was. -/
theorem retry_mask_reset (db : FirestoreDb) (document_path : String)
    (return_only_fields : Option (List String)) (retries : Nat) :
    ∀ p ∈ (get_doc_by_path_trace db document_path return_only_fields retries).1,
      retries < p.1 → p.2.mask = none := by
  suffices h : ∀ k retries m, db.max_retries - retries = k →
      ∀ p ∈ (get_doc_by_path_trace db document_path m retries).1,
        (m = none → p.2.mask = none) ∧ (retries < p.1 → p.2.mask = none) from
    fun p hp => ((h _ retries return_only_fields rfl p hp).2)
  intro k
  induction k using Nat.strong_induction_on with
  | _ k ih =>
    intro retries m hk
    unfold get_doc_by_path_trace
    cases hcons : option_transpose db.consistency_selector with
    | error err => intro p hp; cases hp
    | ok consistency_selector =>
      simp only
      cases hdoc : db.get_document
          { name := document_path
            consistency_selector := consistency_selector
            mask := m.map fun vf => { field_paths := vf } } retries with
      | ok doc_response =>
        intro p hp
        rcases List.mem_singleton.mp hp with rfl
        exact ⟨fun hm => by simp [hm], fun hlt => absurd hlt (by omega)⟩
      | error err =>
        cases err with
        | DatabaseError db_err =>
          by_cases hguard : db_err.retry_possible ∧ retries < db.max_retries
          · simp only [dif_pos hguard]
            intro p hp
            rcases List.mem_cons.mp hp with rfl | hp'
            · exact ⟨fun hm => by simp [hm], fun hlt => absurd hlt (by omega)⟩
            · have hrec := ih (db.max_retries - (retries + 1)) (by omega)
                (retries + 1) none rfl p hp'
              refine ⟨fun _ => hrec.1 rfl, fun _ => hrec.1 rfl⟩
          · simp only [dif_neg hguard]
            intro p hp
            rcases List.mem_singleton.mp hp with rfl
            exact ⟨fun hm => by simp [hm], fun hlt => absurd hlt (by omega)⟩
        | DataNotFoundError d =>
          intro p hp
          rcases List.mem_singleton.mp hp with rfl
          exact ⟨fun hm => by simp [hm], fun hlt => absurd hlt (by omega)⟩
        | DeserializeError d =>
          intro p hp
          rcases List.mem_singleton.mp hp with rfl
          exact ⟨fun hm => by simp [hm], fun hlt => absurd hlt (by omega)⟩
        | InvalidParametersError d =>
          intro p hp
          rcases List.mem_singleton.mp hp with rfl
          exact ⟨fun hm => by simp [hm], fun hlt => absurd hlt (by omega)⟩
        | SystemError d =>
          intro p hp
          rcases List.mem_singleton.mp hp with rfl
          exact ⟨fun hm => by simp [hm], fun hlt => absurd hlt (by omega)⟩

/-- Witness for C6: on the concrete retrying handle, the second recorded
attempt (index `1`) of a fetch that originally asked for field `"f"`
carries no field mask. -/
theorem retry_mask_reset_witness :
    (1, ({ name := "p/c/x", consistency_selector := none, mask := none }
        : GetDocumentRequest))
      ∈ (get_doc_by_path_trace (test_db []) "p/c/x" (some ["f"]) 0).1
    ∧ (0 : Nat) < 1
    ∧ ({ name := "p/c/x", consistency_selector := none, mask := none }
        : GetDocumentRequest).mask = none := by
  have htrace := get_doc_by_path_trace_all_retryable (test_db []) "p/c/x"
    (fun _ => { retry_possible := true, details := "boom" }) none rfl
    (fun _ _ => rfl) (fun _ => rfl) 2 0 (some ["f"]) (by omega) rfl
  have hmem : (1, ({ name := "p/c/x", consistency_selector := none, mask := none }
      : GetDocumentRequest))
      ∈ (get_doc_by_path_trace (test_db []) "p/c/x" (some ["f"]) 0).1 := by
    rw [htrace]
    simp [List.range']
  exact ⟨hmem, by omega,
    retry_mask_reset (test_db []) "p/c/x" (some ["f"]) 0 _ hmem (by omega)⟩

/-- **C3.** `get_obj_at_if_exists` (and through pure forwarding
`get_obj_if_exists`): when the underlying typed fetch fails with
`DataNotFoundError` the call returns `Ok(None)`; when it succeeds with `v`
the call returns `Ok(Some v)`; every other error is returned unchanged as
`Err`, never converted to `Ok(None)`. -/
theorem if_exists_folding {T : Type} (db : FirestoreDb)
    (deser : Document → Except FirestoreError T)
    (parent collection_id document_id : String)
    (return_only_fields : Option (List String)) :
    (∀ d, get_obj_at_return_fields db deser parent collection_id document_id
          return_only_fields = .error (.DataNotFoundError d) →
        get_obj_at_if_exists db deser parent collection_id document_id
          return_only_fields = .ok none)
    ∧ (∀ v, get_obj_at_return_fields db deser parent collection_id document_id
          return_only_fields = .ok v →
        get_obj_at_if_exists db deser parent collection_id document_id
          return_only_fields = .ok (some v))
    ∧ (∀ err, get_obj_at_return_fields db deser parent collection_id document_id
          return_only_fields = .error err →
        (∀ d, err ≠ .DataNotFoundError d) →
        get_obj_at_if_exists db deser parent collection_id document_id
          return_only_fields = .error err)
    ∧ (∀ d, get_obj_at_return_fields db deser db.documents_path collection_id
          document_id return_only_fields = .error (.DataNotFoundError d) →
        get_obj_if_exists db deser collection_id document_id
          return_only_fields = .ok none) := by
  refine ⟨fun d h => ?_, fun v h => ?_, fun err h hne => ?_, fun d h => ?_⟩
  · unfold get_obj_at_if_exists
    rw [h]
  · unfold get_obj_at_if_exists
    rw [h]
  · unfold get_obj_at_if_exists
    rw [h]
    cases err with
    | DatabaseError e => rfl
    | DataNotFoundError d => exact absurd rfl (hne d)
    | DeserializeError d => rfl
    | InvalidParametersError d => rfl
    | SystemError d => rfl
  · unfold get_obj_if_exists get_obj_at_if_exists
    rw [h]

theorem correlate_nil : correlate_batch_response [] = [] := rfl

theorem correlate_cons_found (document : Document)
    (rest : List (Except FirestoreError BatchGetDocumentsResponse)) :
    correlate_batch_response (.ok { result := some (.found document) } :: rest)
      = .ok (extract_doc_id document.name, some document)
          :: correlate_batch_response rest := rfl

theorem correlate_cons_missing (full_doc_id : String)
    (rest : List (Except FirestoreError BatchGetDocumentsResponse)) :
    correlate_batch_response (.ok { result := some (.missing full_doc_id) } :: rest)
      = .ok (extract_doc_id full_doc_id, none) :: correlate_batch_response rest := rfl

theorem correlate_cons_absent
    (rest : List (Except FirestoreError BatchGetDocumentsResponse)) :
    correlate_batch_response (.ok { result := none } :: rest)
      = correlate_batch_response rest := rfl

theorem correlate_cons_error (err : FirestoreError)
    (rest : List (Except FirestoreError BatchGetDocumentsResponse)) :
    correlate_batch_response (.error err :: rest)
      = .error err :: correlate_batch_response rest := rfl

theorem correlate_append
    (l₁ l₂ : List (Except FirestoreError BatchGetDocumentsResponse)) :
    correlate_batch_response (l₁ ++ l₂)
      = correlate_batch_response l₁ ++ correlate_batch_response l₂ :=
  List.filterMap_append l₁ l₂ _

theorem correlate_map_ok (results : List BatchGetResult) :
    correlate_batch_response (results.map fun r => .ok { result := some r })
      = results.map fun r => .ok (extract_doc_id r.name, r.payload) := by
  induction results with
  | nil => rfl
  | cons r rs ih =>
    cases r with
    | found document =>
      rw [List.map_cons, correlate_cons_found, ih]
      rfl
    | missing full_doc_id =>
      rw [List.map_cons, correlate_cons_missing, ih]
      rfl

theorem drop_error_elements_cons_ok (doc_pair : String × Option Document)
    (rest : List (Except FirestoreError (String × Option Document))) :
    drop_error_elements (.ok doc_pair :: rest)
      = doc_pair :: drop_error_elements rest := rfl

theorem drop_error_elements_cons_error (err : FirestoreError)
    (rest : List (Except FirestoreError (String × Option Document))) :
    drop_error_elements (.error err :: rest) = drop_error_elements rest := rfl

theorem drop_error_elements_append
    (l₁ l₂ : List (Except FirestoreError (String × Option Document))) :
    drop_error_elements (l₁ ++ l₂)
      = drop_error_elements l₁ ++ drop_error_elements l₂ :=
  List.filterMap_append l₁ l₂ _

theorem decode_elements_cons_none {T : Type}
    (deser : Document → Except FirestoreError T) (doc_id : String)
    (rest : List (String × Option Document)) :
    decode_elements deser ((doc_id, none) :: rest)
      = (doc_id, none) :: decode_elements deser rest := rfl

theorem decode_elements_cons_fail {T : Type}
    {deser : Document → Except FirestoreError T} {document : Document}
    {derr : FirestoreError} (doc_id : String)
    (rest : List (String × Option Document))
    (h : deser document = .error derr) :
    decode_elements deser ((doc_id, some document) :: rest)
      = decode_elements deser rest := by
  unfold decode_elements
  rw [List.filterMap_cons]
  simp only [h]

theorem decode_elements_append {T : Type}
    (deser : Document → Except FirestoreError T)
    (l₁ l₂ : List (String × Option Document)) :
    decode_elements deser (l₁ ++ l₂)
      = decode_elements deser l₁ ++ decode_elements deser l₂ :=
  List.filterMap_append l₁ l₂ _

theorem batch_with_errors_ok (db : FirestoreDb) (parent collection_id : String)
    (document_ids full_doc_ids : List String)
    (return_only_fields : Option (List String))
    (sel : Option ConsistencySelectorProto)
    (response : List (Except FirestoreError BatchGetDocumentsResponse))
    (hres : collect_firestore_results
      (fun document_id => safe_document_path parent collection_id document_id)
      document_ids = .ok full_doc_ids)
    (hcons : option_transpose db.consistency_selector = .ok sel)
    (hbatch : db.batch_get_documents
        { database := db.database_path
          documents := full_doc_ids
          consistency_selector := sel
          mask := return_only_fields.map fun vf => { field_paths := vf } }
      = .ok response) :
    batch_stream_get_docs_at_with_errors db parent collection_id document_ids
        return_only_fields
      = .ok (correlate_batch_response response) := by
  unfold batch_stream_get_docs_at_with_errors
  simp only [hres, hcons, hbatch]

theorem batch_docs_at_ok (db : FirestoreDb) (parent collection_id : String)
    (document_ids full_doc_ids : List String)
    (return_only_fields : Option (List String))
    (sel : Option ConsistencySelectorProto)
    (response : List (Except FirestoreError BatchGetDocumentsResponse))
    (hres : collect_firestore_results
      (fun document_id => safe_document_path parent collection_id document_id)
      document_ids = .ok full_doc_ids)
    (hcons : option_transpose db.consistency_selector = .ok sel)
    (hbatch : db.batch_get_documents
        { database := db.database_path
          documents := full_doc_ids
          consistency_selector := sel
          mask := return_only_fields.map fun vf => { field_paths := vf } }
      = .ok response) :
    batch_stream_get_docs_at db parent collection_id document_ids
        return_only_fields
      = .ok (drop_error_elements (correlate_batch_response response)) := by
  unfold batch_stream_get_docs_at
  rw [batch_with_errors_ok db parent collection_id document_ids full_doc_ids
    return_only_fields sel response hres hcons hbatch]

theorem batch_objects_at_ok {T : Type} (db : FirestoreDb)
    (deser : Document → Except FirestoreError T) (parent collection_id : String)
    (document_ids full_doc_ids : List String)
    (return_only_fields : Option (List String))
    (sel : Option ConsistencySelectorProto)
    (response : List (Except FirestoreError BatchGetDocumentsResponse))
    (hres : collect_firestore_results
      (fun document_id => safe_document_path parent collection_id document_id)
      document_ids = .ok full_doc_ids)
    (hcons : option_transpose db.consistency_selector = .ok sel)
    (hbatch : db.batch_get_documents
        { database := db.database_path
          documents := full_doc_ids
          consistency_selector := sel
          mask := return_only_fields.map fun vf => { field_paths := vf } }
      = .ok response) :
    batch_stream_get_objects_at db deser parent collection_id document_ids
        return_only_fields
      = .ok (decode_elements deser
          (drop_error_elements (correlate_batch_response response))) := by
  unfold batch_stream_get_objects_at
  rw [batch_docs_at_ok db parent collection_id document_ids full_doc_ids
    return_only_fields sel response hres hcons hbatch]

/-- **C1.** For every batch get call in which path resolution succeeds and
the response stream delivers, for each requested identifier, exactly one
`Found` or `Missing` envelope (their full names being a permutation of the
resolved paths) with no global transport failure, the output stream of
`batch_stream_get_docs_at_with_errors` consists exactly of `Ok` pairs, and
the multiset of short identifiers in it equals the multiset of input
document ids: no requested id is dropped or duplicated. -/
theorem batch_identity_preservation (db : FirestoreDb)
    (parent collection_id : String) (document_ids full_doc_ids : List String)
    (results : List BatchGetResult) (return_only_fields : Option (List String))
    (sel : Option ConsistencySelectorProto)
    (hres : collect_firestore_results
      (fun document_id => safe_document_path parent collection_id document_id)
      document_ids = .ok full_doc_ids)
    (hcons : option_transpose db.consistency_selector = .ok sel)
    (hbatch : db.batch_get_documents
        { database := db.database_path
          documents := full_doc_ids
          consistency_selector := sel
          mask := return_only_fields.map fun vf => { field_paths := vf } }
      = .ok (results.map fun r => .ok { result := some r }))
    (hperm : (results.map BatchGetResult.name).Perm full_doc_ids) :
    batch_stream_get_docs_at_with_errors db parent collection_id document_ids
        return_only_fields
      = .ok (results.map fun r => .ok (extract_doc_id r.name, r.payload))
    ∧ Multiset.ofList (results.map fun r => extract_doc_id r.name)
      = Multiset.ofList document_ids := by
  constructor
  · rw [batch_with_errors_ok db parent collection_id document_ids full_doc_ids
      return_only_fields sel _ hres hcons hbatch]
    rw [correlate_map_ok]
  · have h1 : (results.map fun r => extract_doc_id r.name)
        = (results.map BatchGetResult.name).map extract_doc_id := by
      rw [List.map_map]
      rfl
    have h2 := hperm.map extract_doc_id
    have h3 : full_doc_ids.map extract_doc_id = document_ids :=
      map_extract_of_forall₂ (collect_ok_forall₂ hres)
    rw [h1]
    exact Quot.sound (h3 ▸ h2)

/-- Witness for C1: two requested ids `["x", "y"]`, answered by a found
envelope for `x` and a missing envelope for `y`; the output is two `Ok`
pairs whose id multiset is exactly `{x, y}`. -/
theorem batch_identity_preservation_witness :
    batch_stream_get_docs_at_with_errors (test_db identity_response) "p" "c"
        ["x", "y"] none
      = .ok [.ok (extract_doc_id "p/c/x", some doc_x),
             .ok (extract_doc_id "p/c/y", none)]
    ∧ Multiset.ofList [extract_doc_id "p/c/x", extract_doc_id "p/c/y"]
      = Multiset.ofList ["x", "y"] := by
  have h := batch_identity_preservation (test_db identity_response) "p" "c"
    ["x", "y"] ["p/c/x", "p/c/y"] [.found doc_x, .missing "p/c/y"] none none
    rfl rfl rfl (List.Perm.refl _)
  exact ⟨h.1, h.2⟩

/-- **C4.** For every batch call and every requested id whose envelope in
the response stream is `Missing` of its resolved full name, the output
element for that id is the pair `(id, None)` — an `Ok` element carrying
`None`, never an `Err` element — in the error-preserving stream and in both
error-suppressing streams (`batch_stream_get_docs_at`,
`batch_stream_get_objects_at`). -/
theorem missing_yields_none_pair (db : FirestoreDb)
    (parent collection_id : String) (document_ids full_doc_ids : List String)
    (return_only_fields : Option (List String))
    (sel : Option ConsistencySelectorProto)
    (l₁ l₂ : List (Except FirestoreError BatchGetDocumentsResponse))
    (document_id₀ full₀ : String)
    (hres : collect_firestore_results
      (fun document_id => safe_document_path parent collection_id document_id)
      document_ids = .ok full_doc_ids)
    (hcons : option_transpose db.consistency_selector = .ok sel)
    (hfull : safe_document_path parent collection_id document_id₀ = .ok full₀)
    (hbatch : db.batch_get_documents
        { database := db.database_path
          documents := full_doc_ids
          consistency_selector := sel
          mask := return_only_fields.map fun vf => { field_paths := vf } }
      = .ok (l₁ ++ .ok { result := some (.missing full₀) } :: l₂)) :
    batch_stream_get_docs_at_with_errors db parent collection_id document_ids
        return_only_fields
      = .ok (correlate_batch_response l₁
          ++ .ok (document_id₀, none) :: correlate_batch_response l₂)
    ∧ batch_stream_get_docs_at db parent collection_id document_ids
        return_only_fields
      = .ok (drop_error_elements (correlate_batch_response l₁)
          ++ (document_id₀, none)
            :: drop_error_elements (correlate_batch_response l₂))
    ∧ ∀ (T : Type) (deser : Document → Except FirestoreError T),
        batch_stream_get_objects_at db deser parent collection_id document_ids
            return_only_fields
          = .ok (decode_elements deser
                (drop_error_elements (correlate_batch_response l₁))
              ++ (document_id₀, none)
                :: decode_elements deser
                  (drop_error_elements (correlate_batch_response l₂))) := by
  have hid : extract_doc_id full₀ = document_id₀ :=
    extract_of_safe_document_path hfull
  have hcorr : correlate_batch_response
      (l₁ ++ .ok { result := some (.missing full₀) } :: l₂)
      = correlate_batch_response l₁
        ++ .ok (document_id₀, none) :: correlate_batch_response l₂ := by
    rw [correlate_append, correlate_cons_missing, hid]
  refine ⟨?_, ?_, ?_⟩
  · rw [batch_with_errors_ok db parent collection_id document_ids full_doc_ids
      return_only_fields sel _ hres hcons hbatch, hcorr]
  · rw [batch_docs_at_ok db parent collection_id document_ids full_doc_ids
      return_only_fields sel _ hres hcons hbatch, hcorr]
    rw [drop_error_elements_append, drop_error_elements_cons_ok]
  · intro T deser
    rw [batch_objects_at_ok db deser parent collection_id document_ids
      full_doc_ids return_only_fields sel _ hres hcons hbatch, hcorr]
    rw [drop_error_elements_append, drop_error_elements_cons_ok,
      decode_elements_append, decode_elements_cons_none]

/-- Witness for C4: one requested id `"x"` answered by a `Missing` envelope
yields the single `Ok` element `("x", none)` in all three views. -/
theorem missing_yields_none_pair_witness :
    batch_stream_get_docs_at_with_errors (test_db missing_response) "p" "c"
        ["x"] none
      = .ok (correlate_batch_response []
          ++ .ok ("x", none) :: correlate_batch_response [])
    ∧ batch_stream_get_docs_at (test_db missing_response) "p" "c" ["x"] none
      = .ok (drop_error_elements (correlate_batch_response [])
          ++ ("x", none) :: drop_error_elements (correlate_batch_response []))
    ∧ batch_stream_get_objects_at (test_db missing_response) const_deser "p" "c"
        ["x"] none
      = .ok (decode_elements const_deser
            (drop_error_elements (correlate_batch_response []))
          ++ ("x", none)
            :: decode_elements const_deser
              (drop_error_elements (correlate_batch_response []))) := by
  have h := missing_yields_none_pair (test_db missing_response) "p" "c" ["x"]
    ["p/c/x"] none none [] [] "x" "p/c/x" rfl rfl rfl rfl
  exact ⟨h.1, h.2.1, h.2.2 Nat const_deser⟩

/-- **C5.** In the error-suppressing batch views, a per-element transport
error, or an element whose document fails typed decoding, is dropped
without terminating the stream: every subsequent successfully correlated
element still appears in the output, in the same relative arrival order. -/
theorem suppression_liveness (db : FirestoreDb) (parent collection_id : String)
    (document_ids full_doc_ids : List String)
    (return_only_fields : Option (List String))
    (sel : Option ConsistencySelectorProto)
    (hres : collect_firestore_results
      (fun document_id => safe_document_path parent collection_id document_id)
      document_ids = .ok full_doc_ids)
    (hcons : option_transpose db.consistency_selector = .ok sel) :
    (∀ (l₁ l₂ : List (Except FirestoreError BatchGetDocumentsResponse))
        (err : FirestoreError),
      db.batch_get_documents
          { database := db.database_path
            documents := full_doc_ids
            consistency_selector := sel
            mask := return_only_fields.map fun vf => { field_paths := vf } }
        = .ok (l₁ ++ .error err :: l₂) →
      batch_stream_get_docs_at db parent collection_id document_ids
          return_only_fields
        = .ok (drop_error_elements (correlate_batch_response l₁)
            ++ drop_error_elements (correlate_batch_response l₂))
      ∧ ∀ (T : Type) (deser : Document → Except FirestoreError T),
          batch_stream_get_objects_at db deser parent collection_id document_ids
              return_only_fields
            = .ok (decode_elements deser
                  (drop_error_elements (correlate_batch_response l₁))
                ++ decode_elements deser
                  (drop_error_elements (correlate_batch_response l₂))))
    ∧ (∀ (l₁ l₂ : List (Except FirestoreError BatchGetDocumentsResponse))
        (document : Document) (T : Type)
        (deser : Document → Except FirestoreError T) (derr : FirestoreError),
      db.batch_get_documents
          { database := db.database_path
            documents := full_doc_ids
            consistency_selector := sel
            mask := return_only_fields.map fun vf => { field_paths := vf } }
        = .ok (l₁ ++ .ok { result := some (.found document) } :: l₂) →
      deser document = .error derr →
      batch_stream_get_objects_at db deser parent collection_id document_ids
          return_only_fields
        = .ok (decode_elements deser
              (drop_error_elements (correlate_batch_response l₁))
            ++ decode_elements deser
              (drop_error_elements (correlate_batch_response l₂)))) := by
  constructor
  · intro l₁ l₂ err hbatch
    have hdrop : drop_error_elements
        (correlate_batch_response (l₁ ++ .error err :: l₂))
        = drop_error_elements (correlate_batch_response l₁)
          ++ drop_error_elements (correlate_batch_response l₂) := by
      rw [correlate_append, correlate_cons_error, drop_error_elements_append,
        drop_error_elements_cons_error]
    constructor
    · rw [batch_docs_at_ok db parent collection_id document_ids full_doc_ids
        return_only_fields sel _ hres hcons hbatch, hdrop]
    · intro T deser
      rw [batch_objects_at_ok db deser parent collection_id document_ids
        full_doc_ids return_only_fields sel _ hres hcons hbatch, hdrop,
        decode_elements_append]
  · intro l₁ l₂ document T deser derr hbatch hderr
    rw [batch_objects_at_ok db deser parent collection_id document_ids
      full_doc_ids return_only_fields sel _ hres hcons hbatch]
    rw [correlate_append, correlate_cons_found, drop_error_elements_append,
      drop_error_elements_cons_ok, decode_elements_append,
      decode_elements_cons_fail _ _ hderr]

/-- Witness for C5: a response stream `[transport error, found x, missing y]`
with an always-failing decoder; the docs view drops the error and keeps two
elements in order, and the objects view additionally drops the found
document whose decode fails, keeping the missing element. -/
theorem suppression_liveness_witness :
    batch_stream_get_docs_at (test_db liveness_response) "p" "c" ["x", "y"] none
      = .ok (drop_error_elements (correlate_batch_response [])
          ++ drop_error_elements (correlate_batch_response
            [.ok { result := some (.found doc_x) },
             .ok { result := some (.missing "p/c/y") }]))
    ∧ batch_stream_get_objects_at (test_db liveness_response) fail_deser "p" "c"
        ["x", "y"] none
      = .ok (decode_elements fail_deser
            (drop_error_elements (correlate_batch_response
              [.error (.SystemError "e1")]))
          ++ decode_elements fail_deser
            (drop_error_elements (correlate_batch_response
              [.ok { result := some (.missing "p/c/y") }]))) := by
  have h := suppression_liveness (test_db liveness_response) "p" "c" ["x", "y"]
    ["p/c/x", "p/c/y"] none none rfl rfl
  exact ⟨(h.1 [] [.ok { result := some (.found doc_x) },
      .ok { result := some (.missing "p/c/y") }] (.SystemError "e1") rfl).1,
    h.2 [.error (.SystemError "e1")] [.ok { result := some (.missing "p/c/y") }]
      doc_x Nat fail_deser (.DeserializeError "bad") rfl rfl⟩

/-- **C10.** A successfully received response envelope whose `result` field
is absent produces no output element at all: the error-preserving stream,
the error-suppressing stream and the typed stream are each exactly what they
would be for the response stream without that envelope. -/
theorem absent_result_skipped (db : FirestoreDb) (parent collection_id : String)
    (document_ids full_doc_ids : List String)
    (return_only_fields : Option (List String))
    (sel : Option ConsistencySelectorProto)
    (l₁ l₂ : List (Except FirestoreError BatchGetDocumentsResponse))
    (hres : collect_firestore_results
      (fun document_id => safe_document_path parent collection_id document_id)
      document_ids = .ok full_doc_ids)
    (hcons : option_transpose db.consistency_selector = .ok sel)
    (hbatch : db.batch_get_documents
        { database := db.database_path
          documents := full_doc_ids
          consistency_selector := sel
          mask := return_only_fields.map fun vf => { field_paths := vf } }
      = .ok (l₁ ++ .ok { result := none } :: l₂)) :
    batch_stream_get_docs_at_with_errors db parent collection_id document_ids
        return_only_fields
      = .ok (correlate_batch_response (l₁ ++ l₂))
    ∧ batch_stream_get_docs_at db parent collection_id document_ids
        return_only_fields
      = .ok (drop_error_elements (correlate_batch_response (l₁ ++ l₂)))
    ∧ ∀ (T : Type) (deser : Document → Except FirestoreError T),
        batch_stream_get_objects_at db deser parent collection_id document_ids
            return_only_fields
          = .ok (decode_elements deser
              (drop_error_elements (correlate_batch_response (l₁ ++ l₂)))) := by
  have hcorr : correlate_batch_response (l₁ ++ .ok { result := none } :: l₂)
      = correlate_batch_response (l₁ ++ l₂) := by
    rw [correlate_append, correlate_cons_absent, correlate_append]
  refine ⟨?_, ?_, ?_⟩
  · rw [batch_with_errors_ok db parent collection_id document_ids full_doc_ids
      return_only_fields sel _ hres hcons hbatch, hcorr]
  · rw [batch_docs_at_ok db parent collection_id document_ids full_doc_ids
      return_only_fields sel _ hres hcons hbatch, hcorr]
  · intro T deser
    rw [batch_objects_at_ok db deser parent collection_id document_ids
      full_doc_ids return_only_fields sel _ hres hcons hbatch, hcorr]

/-- Witness for C10: the response `[missing x, result-absent, missing y]`
yields in every view exactly the output of `[missing x, missing y]`. -/
theorem absent_result_skipped_witness :
    batch_stream_get_docs_at_with_errors (test_db absent_result_response) "p"
        "c" ["x", "y"] none
      = .ok (correlate_batch_response
          ([.ok { result := some (.missing "p/c/x") }]
            ++ [.ok { result := some (.missing "p/c/y") }]))
    ∧ batch_stream_get_docs_at (test_db absent_result_response) "p" "c"
        ["x", "y"] none
      = .ok (drop_error_elements (correlate_batch_response
          ([.ok { result := some (.missing "p/c/x") }]
            ++ [.ok { result := some (.missing "p/c/y") }]))) := by
  have h := absent_result_skipped (test_db absent_result_response) "p" "c"
    ["x", "y"] ["p/c/x", "p/c/y"] none none
    [.ok { result := some (.missing "p/c/x") }]
    [.ok { result := some (.missing "p/c/y") }] rfl rfl rfl
  exact ⟨h.1, h.2.1⟩

/-- **C7.** If `safe_document_path` fails for at least one supplied document
id, the whole batch call fails with exactly the error produced by the
up-front path-resolution pass, and no partial output stream is produced.
The database handle — in particular its batch transport — is universally
quantified and the conclusion does not depend on it, so the failure happens
before any RPC request is constructed or issued. -/
theorem path_resolution_fail_fast (db : FirestoreDb)
    (parent collection_id : String) (document_ids : List String)
    (return_only_fields : Option (List String)) (document_id₀ : String)
    (e₀ : FirestoreError) (hmem : document_id₀ ∈ document_ids)
    (hfail : safe_document_path parent collection_id document_id₀ = .error e₀) :
    match collect_firestore_results
        (fun document_id => safe_document_path parent collection_id document_id)
        document_ids with
    | .ok _ => False
    | .error e =>
        batch_stream_get_docs_at_with_errors db parent collection_id
          document_ids return_only_fields = .error e := by
  obtain ⟨e', he'⟩ := collect_error_of_mem hmem hfail
  rw [he']
  unfold batch_stream_get_docs_at_with_errors
  simp only [he']

/-- Witness for C7: the id `"b/c"` fails path resolution, and the whole call
returns exactly that resolution error. -/
theorem path_resolution_fail_fast_witness :
    match collect_firestore_results
        (fun document_id => safe_document_path "p" "c" document_id)
        ["a", "b/c"] with
    | .ok _ => False
    | .error e =>
        batch_stream_get_docs_at_with_errors (test_db []) "p" "c" ["a", "b/c"]
          none = .error e :=
  path_resolution_fail_fast (test_db []) "p" "c" ["a", "b/c"] none "b/c"
    (.InvalidParametersError "b/c") (by decide) rfl

/-- Witness for C3: on a handle whose transport reports a missing document,
the typed fetch fails with `DataNotFoundError` and the existence-folding
call returns `Ok(None)`. -/
theorem if_exists_folding_witness :
    get_obj_at_return_fields notfound_db const_deser "p" "c" "d" none
        = .error (.DataNotFoundError "nf")
    ∧ get_obj_at_if_exists notfound_db const_deser "p" "c" "d" none
        = .ok none := by
  have h : get_obj_at_return_fields notfound_db const_deser "p" "c" "d" none
      = .error (.DataNotFoundError "nf") := by
    unfold get_obj_at_return_fields get_doc_at
    rw [show safe_document_path "p" "c" "d" = .ok "p/c/d" from rfl]
    unfold get_doc_by_path
    rfl
  exact ⟨h,
    (if_exists_folding notfound_db const_deser "p" "c" "d" none).1 "nf" h⟩

end Firestore
